import Mathlib

/-!
Verification development for the asynchronous HTTP/1.1 client engine in
src/src/http.cpp (namespace http): Connection, Resolver and the Request
state machine.

Modelling conventions.

Byte buffers and C++ std::string values are modelled as Lean String, one
Char per byte, so String.length corresponds to std::string::size() and
String.take and String.drop correspond to substr.  asio error_code values
are modelled by the inductive Ec below, whose constructors are the codes
the source distinguishes.  The external http_parser (a consumed
capability) is modelled as an oracle: each call to http_parser_execute is
represented by the list of callback events the parser delivers for the
fed bytes, plus the post-call error flag; the engine is embedded
faithfully in how it reacts to those events.

A std::map read through the square-bracket operator default-inserts an
empty string for a missing key in the source; every such read is
modelled as a lookup with default empty string.  The inserted empty value
is observationally equivalent for every later lookup the source performs
(an inserted Connection key holds an empty value, which compares unequal
to the keep-alive constant exactly as a missing key does), so the model
omits the insertion.

The reactor is single-threaded: each asynchronous completion handler runs
to completion before the next is dispatched.  A Request execution is
therefore modelled as a sequence of synchronous steps, each consuming one
completion event for the operation left pending by the previous step.
-/

namespace Http

/-- asio error codes distinguished by the source. `ok` is the
default-constructed (falsy) error_code. -/
inductive Ec where
  | ok
  | eof
  | operationAborted
  | connectionAborted
  | notConnected
  | connectionReset
  | otherError
deriving DecidableEq

/-- Request lifecycle states (Request::State, used as CREATED, SENDING,
RECEIVING, HEADER_RECEIVED, DONE in http.cpp). -/
inductive HState where
  | CREATED
  | SENDING
  | RECEIVING
  | HEADER_RECEIVED
  | DONE
deriving DecidableEq

/-- restinio http_connection_header_t: the connection-type directive of a
Request (member connection_type_). -/
inductive ConnType where
  | close
  | keep_alive
  | upgrade
deriving DecidableEq

/-- Header mapping: std::map from field name to value, last value wins on
duplicate field names.  Modelled as an association list with
replace-on-insert. -/
def hset (hs : List (String × String)) (k v : String) : List (String × String) :=
  match hs with
  | [] => [(k, v)]
  | (k0, v0) :: rest => if k0 = k then (k, v) :: rest else (k0, v0) :: hset rest k v

/-- map::find, returning the stored value when the key is present. -/
def hfind (hs : List (String × String)) (k : String) : Option String :=
  match hs with
  | [] => none
  | (k0, v0) :: rest => if k0 = k then some v0 else hfind rest k

/-- Square-bracket read: stored value of the key, or the default-inserted
empty string when the key is missing. -/
def hfindD (hs : List (String × String)) (k : String) : String :=
  (hfind hs k).getD ""

/-- http::Response: status code, header mapping, accumulated body. -/
structure Response where
  status_code : Nat := 0
  headers : List (String × String) := []
  body : String := ""
deriving DecidableEq

/-- Events delivered by the external http_parser to the callbacks wired
in Request::init_parser: on_status, on_header_field, on_header_value,
on_body. -/
inductive ParseEvent where
  | status (code : Nat)
  | headerField (s : String)
  | headerValue (s : String)
  | body (s : String)
deriving DecidableEq

/-- Effect of one parser callback on the Response being assembled and on
the header_field accumulator, exactly as the wrappers installed by
Request::init_parser behave: on_status stores the status code into the
response, on_header_field erases and refills the accumulator,
on_header_value stores accumulator-to-value into the header map, on_body
appends the chunk to the response body. -/
def applyEvent (p : Response × String) (ev : ParseEvent) : Response × String :=
  match ev with
  | .status c => ({ p.1 with status_code := c }, p.2)
  | .headerField s => (p.1, s)
  | .headerValue s => ({ p.1 with headers := hset p.1.headers p.2 s }, p.2)
  | .body s => ({ p.1 with body := p.1.body ++ s }, p.2)

/-- Folding a whole parser-callback sequence over the response. -/
def applyEvents (p : Response × String) (evs : List ParseEvent) : Response × String :=
  evs.foldl applyEvent p

/-- Result of Request::parse_request: the updated response and
header-field accumulator, the state-change notifications it issues
(none), and the byte strings it feeds to http_parser_execute (exactly the
one buffer it was given).  The oracle arguments evs and the post-call
error flag stand for the parser behaviour on the fed string s; the error
flag is only logged by the source, which is why the result does not
depend on it. -/
structure ParseOut where
  resp : Response
  hf : String
  ns : List HState
  fed : List String
deriving DecidableEq

/-- Request::parse_request (http.cpp lines 700-713). -/
def parse_request (resp : Response) (hf : String) (s : String)
    (evs : List ParseEvent) (_perr : Bool) : ParseOut :=
  let p := applyEvents (resp, hf) evs
  { resp := p.1, hf := p.2, ns := [], fed := [s] }

/-- The mutable Request fields the analysed handlers touch: the
connection-type directive, the Response being assembled and the
header-field accumulator shared with the parser wrappers. -/
structure Req where
  connection_type : ConnType := .close
  resp : Response := {}
  header_field : String := ""
deriving DecidableEq

/-- The read operation a step leaves pending: transfer_exactly n or
transfer_at_least 1. -/
inductive ReadSpec where
  | exactly (n : Nat)
  | atLeastOne
deriving DecidableEq

/-- The asynchronous operation left pending when a handler returns.
`idle` means no operation is outstanding: either the request terminated,
or the handler returned without scheduling anything (in which case no
completion can ever be delivered again). -/
inductive Pending where
  | resolve
  | connect
  | write
  | readHeader
  | readBody (chunk : String) (spec : ReadSpec)
  | idle
deriving DecidableEq

/-- Result of one synchronous handler step: the updated request fields,
the state-change notifications issued (in order), the byte strings fed to
http_parser_execute (in order), and the operation left pending. -/
structure StepOut where
  rq : Req
  ns : List HState
  fed : List String
  next : Pending
deriving DecidableEq

/-- Request::terminate (http.cpp lines 551-564): no-error, end-of-file
and operation-aborted become status 200, every other code status 0;
always notifies the DONE state change and leaves nothing pending. -/
def terminate (rq : Req) (ec : Ec) : StepOut :=
  let status : Nat := if ec = .ok ∨ ec = .eof ∨ ec = .operationAborted then 200 else 0
  { rq := { rq with resp := { rq.resp with status_code := status } },
    ns := [.DONE], fed := [], next := .idle }

/-- Value of the digit run prefixing cs, as computed by atoi. -/
def digitsVal (cs : List Char) : Nat :=
  (cs.takeWhile Char.isDigit).foldl (fun a c => 10 * a + (c.toNat - 48)) 0

/-- C atoi: optional leading whitespace, optional sign, leading digit
run. -/
def atoi (s : String) : Int :=
  let cs := s.data.dropWhile Char.isWhitespace
  match cs with
  | '-' :: rest => - (digitsVal rest : Int)
  | '+' :: rest => (digitsVal rest : Int)
  | _ => (digitsVal cs : Int)

/-- The source stores the atoi result into an unsigned int: conversion is
reduction modulo 2 to the 32. -/
def atoiU32 (s : String) : Nat :=
  ((atoi s) % (2 ^ 32 : Int)).toNat

/-- Tail of Request::handle_response_body (http.cpp lines 691-698),
reached after the content-length accounting: if the response declared
Connection keep-alive, schedule a transfer_at_least-one read with an
empty carried chunk; otherwise, if the connection-type directive is
close, terminate with end-of-file; otherwise return with nothing
scheduled. -/
def afterBody (rq : Req) : StepOut :=
  if hfindD rq.resp.headers "Connection" = "keep-alive" then
    { rq := rq, ns := [], fed := [], next := .readBody "" .atLeastOne }
  else if rq.connection_type = .close then
    terminate rq .eof
  else
    { rq := rq, ns := [], fed := [], next := .idle }

/-- The store-and-parse step of handle_response_body (lines 680-681 and
687-688): assign the accumulated body to the response, then feed the
whole accumulated body to the parser. -/
def storeParse (rq : Req) (body : String) (bevs : List ParseEvent) (bperr : Bool) :
    Req × List HState × List String :=
  let po := parse_request { rq.resp with body := body } rq.header_field body bevs bperr
  ({ rq with resp := po.resp, header_field := po.hf }, po.ns, po.fed)

/-- Request::handle_response_body (http.cpp lines 637-698).  data is the
full content of the connection read buffer at handler entry, nbytes the
completion byte count (the source drains the buffer and keeps its first
nbytes bytes), chunk the carried-over partial body.  bevs and bperr are
the parser oracle for the body feed, when one happens. -/
def handle_response_body (rq : Req) (connOpen : Bool) (ec : Ec) (data : String)
    (nbytes : Nat) (chunk : String) (bevs : List ParseEvent) (bperr : Bool) : StepOut :=
  if connOpen = false then terminate rq .notConnected
  else if ec ≠ .ok ∧ ec ≠ .eof then terminate rq ec
  else if ec = .eof ∨ ec = .connectionReset then terminate rq ec
  else
    let body := chunk ++ data.take nbytes
    match hfind rq.resp.headers "Content-Length" with
    | some clv =>
      let content_length := atoiU32 clv
      if content_length > body.length then
        { rq := rq, ns := [], fed := [],
          next := .readBody body (.exactly (content_length - body.length)) }
      else if content_length = body.length then
        let sp := storeParse rq body bevs bperr
        let out := afterBody sp.1
        { out with ns := sp.2.1 ++ out.ns, fed := sp.2.2 ++ out.fed }
      else
        afterBody rq
    | none =>
      if body = "" then afterBody rq
      else
        let sp := storeParse rq body bevs bperr
        let out := afterBody sp.1
        { out with ns := sp.2.1 ++ out.ns, fed := sp.2.2 ++ out.fed }

/-- Request::handle_response_header (http.cpp lines 591-635).  hevs/hperr
are the parser oracle for the header-block feed; bevs/bperr for the body
feed when leftover body bytes arrived in the same read and the handler
calls handle_response_body synchronously. -/
def handle_response_header (rq : Req) (connOpen : Bool) (ec : Ec) (data : String)
    (nbytes : Nat) (hevs : List ParseEvent) (hperr : Bool)
    (bevs : List ParseEvent) (bperr : Bool) : StepOut :=
  if connOpen = false then terminate rq .notConnected
  else if ec ≠ .ok ∧ ec ≠ .eof then terminate rq ec
  else if ec = .eof ∨ ec = .connectionReset then terminate rq ec
  else
    let po := parse_request rq.resp rq.header_field (data.take nbytes) hevs hperr
    let rq1 : Req := { rq with resp := po.resp, header_field := po.hf }
    if hfindD rq1.resp.headers "Connection" = "keep-alive"
        ∨ (hfind rq1.resp.headers "Content-Length").isSome then
      let body := data.drop nbytes
      if body = "" then
        { rq := rq1, ns := po.ns ++ [.HEADER_RECEIVED, .RECEIVING],
          fed := po.fed, next := .readBody "" .atLeastOne }
      else
        let out := handle_response_body rq1 connOpen .ok "" body.length body bevs bperr
        { out with ns := po.ns ++ [.HEADER_RECEIVED, .RECEIVING] ++ out.ns,
                   fed := po.fed ++ out.fed }
    else if rq1.connection_type = .close then
      let out := terminate rq1 .eof
      { out with ns := po.ns ++ [.HEADER_RECEIVED] ++ out.ns, fed := po.fed ++ out.fed }
    else
      { rq := rq1, ns := po.ns ++ [.HEADER_RECEIVED], fed := po.fed, next := .idle }

/-- Request::handle_request (http.cpp lines 566-589): write completion;
on success notifies RECEIVING and schedules the read-until-delimiter of
the response header. -/
def handle_request (rq : Req) (connOpen : Bool) (ec : Ec) : StepOut :=
  if connOpen = false then terminate rq .notConnected
  else if ec ≠ .ok ∧ ec ≠ .eof then terminate rq ec
  else { rq := rq, ns := [.RECEIVING], fed := [], next := .readHeader }

/-- Request::post (http.cpp lines 526-549).  build() throws
std::invalid_argument for the upgrade directive before SENDING is
notified and before any operation is scheduled; the exception unwinds out
of the engine, modelled as a step that notifies nothing and leaves
nothing pending.  For the other directives build() succeeds (normalising
the directive to close in its default branch, which is the identity on
the two remaining values) and the request is staged and written. -/
def post (rq : Req) (connOpen : Bool) : StepOut :=
  if connOpen = false then terminate rq .notConnected
  else if rq.connection_type = .upgrade then
    { rq := rq, ns := [], fed := [], next := .idle }
  else
    { rq := rq, ns := [.SENDING], fed := [], next := .write }

/-- The resolver callback registered by Request::send (http.cpp lines
502-524) for a request that owns no connection yet, composed with
Request::connect (lines 468-499): resolution error terminates with
connection-aborted; an empty endpoint set makes connect invoke its
handler with connection-aborted, which send turns into terminate
not-connected; otherwise async_connect is started. -/
def on_resolved (rq : Req) (ec : Ec) (eps : List Nat) (connOpen : Bool) : StepOut :=
  if ec ≠ .ok then terminate rq .connectionAborted
  else if connOpen = false then
    if eps = [] then terminate rq .notConnected
    else { rq := rq, ns := [], fed := [], next := .connect }
  else post rq connOpen

/-- The async_connect completion composed with the handler send passes to
connect: failure terminates with not-connected, success runs post. -/
def on_connected (rq : Req) (ec : Ec) (connOpen : Bool) : StepOut :=
  if ec ≠ .ok then terminate rq .notConnected
  else post rq connOpen

/-- One completion event delivered by the reactor, carrying everything
the corresponding handler reads from the environment: the error code,
whether the socket is open at handler entry, the read-buffer content and
completion byte count, and the parser oracle for the feeds the handler
performs. -/
inductive Ev where
  | resolved (ec : Ec) (eps : List Nat) (connOpen : Bool)
  | connected (ec : Ec) (connOpen : Bool)
  | wrote (connOpen : Bool) (ec : Ec)
  | gotHeader (connOpen : Bool) (ec : Ec) (data : String) (nbytes : Nat)
      (hevs : List ParseEvent) (hperr : Bool) (bevs : List ParseEvent) (bperr : Bool)
  | gotBody (connOpen : Bool) (ec : Ec) (data : String) (nbytes : Nat)
      (bevs : List ParseEvent) (bperr : Bool)
deriving DecidableEq

/-- Dispatch one completion event against the pending operation.  An
event that does not match the pending operation cannot occur on the
single-threaded reactor and is ignored; in particular nothing is ever
dispatched once nothing is pending. -/
def step (rq : Req) (p : Pending) (e : Ev) : StepOut :=
  match p, e with
  | .resolve, .resolved ec eps connOpen => on_resolved rq ec eps connOpen
  | .connect, .connected ec connOpen => on_connected rq ec connOpen
  | .write, .wrote connOpen ec => handle_request rq connOpen ec
  | .readHeader, .gotHeader connOpen ec data nbytes hevs hperr bevs bperr =>
      handle_response_header rq connOpen ec data nbytes hevs hperr bevs bperr
  | .readBody chunk _, .gotBody connOpen ec data nbytes bevs bperr =>
      handle_response_body rq connOpen ec data nbytes chunk bevs bperr
  | _, _ => { rq := rq, ns := [], fed := [], next := p }

/-- Final request fields, final pending operation and accumulated
notification trace of a run. -/
structure RunOut where
  rq : Req
  next : Pending
  trace : List HState
deriving DecidableEq

/-- Drive the request through a sequence of completion events. -/
def runFrom (rq : Req) (p : Pending) : List Ev → RunOut
  | [] => { rq := rq, next := p, trace := [] }
  | e :: es =>
    let o := step rq p e
    let r := runFrom o.rq o.next es
    { rq := r.rq, next := r.next, trace := o.ns ++ r.trace }

/-- Request::send on a fresh request: notifies CREATED, registers the
resolver callback, then the reactor delivers completions. -/
def send (ct : ConnType) (evs : List Ev) : RunOut :=
  let r := runFrom { connection_type := ct } .resolve evs
  { r with trace := HState.CREATED :: r.trace }

/-- The CRLF line terminator. -/
def crlf : String := "\r\n"

/-- The request line of Request::build (http.cpp lines 335-336): method,
target and version from the restinio request header object. -/
def requestLine (method target : String) (httpMajor httpMinor : Nat) : String :=
  method ++ " " ++ target ++ " HTTP/" ++ toString httpMajor ++ "." ++ toString httpMinor

/-- One user header line (http.cpp line 340): field_to_string image of
the field, colon, space, value. -/
def headerLine (kv : String × String) : String :=
  kv.1 ++ ": " ++ kv.2

/-- The connection-type switch of Request::build (lines 343-355): upgrade
throws std::invalid_argument, keep-alive serializes as keep-alive, close
and the default branch serialize as close. -/
def connStr : ConnType → Option String
  | .upgrade => none
  | .keep_alive => some "keep-alive"
  | .close => some "close"

/-- Trailing segments of the built request (lines 358-365): with a
non-empty body a Content-Length header computed from the body byte
length, a blank line, then the body; every segment listed here is
terminated by CRLF on serialization, so the final CRLF the source appends
is the terminator of the last segment (the blank segment when the body is
empty, the body segment otherwise). -/
def bodySegments (body : String) : List String :=
  if body = "" then [""]
  else ["Content-Length: " ++ toString body.length, "", body]

/-- Request::build (http.cpp lines 329-367) at the granularity of
CRLF-terminated segments, together with the normalised connection-type
directive (the default branch of the switch assigns close back to
connection_type_). -/
def buildSegments (method target : String) (httpMajor httpMinor : Nat)
    (headers : List (String × String)) (ct : ConnType) (body : String) :
    Except String (List String × ConnType) :=
  match connStr ct with
  | none => .error "upgrade"
  | some cs =>
    .ok ([requestLine method target httpMajor httpMinor]
          ++ headers.map headerLine
          ++ ["Connection: " ++ cs]
          ++ bodySegments body,
         if ct = .keep_alive then ConnType.keep_alive else ConnType.close)

/-- Serialize segments to the wire string: each segment followed by
CRLF, concatenated in order exactly as the stringstream insertions of
Request::build produce them. -/
def serialize : List String → String
  | [] => ""
  | s :: rest => s ++ crlf ++ serialize rest

/-- Request::build producing the wire-format request string stored in
request_, or the thrown invalid-argument for the upgrade directive (the
only throw in the engine; request_ is not assigned in that case). -/
def build (method target : String) (httpMajor httpMinor : Nat)
    (headers : List (String × String)) (ct : ConnType) (body : String) :
    Except String (String × ConnType) :=
  (buildSegments method target httpMajor httpMinor headers ct body).map
    (fun p => (serialize p.1, p.2))

/-- A serialized line is a Connection header line when its first twelve
bytes are the Connection field name, colon, space. -/
def isConnLine (s : String) : Bool :=
  decide (s.data.take 12 = "Connection: ".data)

/-- http::Resolver state: the completion flag, the cached error and
endpoint set, and the FIFO queue of pending callbacks (identified by
number; a null std::function is skipped by the source before invocation,
so only real callbacks are modelled). -/
structure Resolver where
  completed : Bool
  ec : Ec
  endpoints : List Nat
  cbs : List Nat
deriving DecidableEq

/-- The host/service constructor: resolution pending, nothing cached. -/
def initResolver : Resolver :=
  { completed := false, ec := .ok, endpoints := [], cbs := [] }

/-- One callback invocation: which callback fired, with which error and
endpoint set. -/
structure Fire where
  cb : Nat
  ec : Ec
  endpoints : List Nat
deriving DecidableEq

/-- Resolver::add_callback (http.cpp lines 201-209): queue while
resolution is pending, otherwise invoke synchronously with the cached
error and endpoints. -/
def add_callback (r : Resolver) (i : Nat) : Resolver × List Fire :=
  if r.completed = false then ({ r with cbs := r.cbs ++ [i] }, [])
  else (r, [{ cb := i, ec := r.ec, endpoints := r.endpoints }])

/-- The completion handler of Resolver::resolve (lines 216-246): cache
the outcome, set the completion flag, move the queue out and invoke every
queued callback in FIFO order with the outcome. -/
def resolveComplete (r : Resolver) (ec : Ec) (eps : List Nat) : Resolver × List Fire :=
  ({ completed := true, ec := ec, endpoints := eps, cbs := [] },
   r.cbs.map (fun i => { cb := i, ec := ec, endpoints := eps }))

/-- Resolver destructor (lines 186-199): every still-queued callback is
invoked with operation-aborted and an empty endpoint set. -/
def destroyResolver (r : Resolver) : List Fire :=
  r.cbs.map (fun i => { cb := i, ec := .operationAborted, endpoints := [] })

/-- Actions performed on a live Resolver: callback registrations and the
(at most one) resolution completion. -/
inductive RAct where
  | addCb (i : Nat)
  | complete (ec : Ec) (eps : List Nat)
deriving DecidableEq

/-- Whether an action registers callback i. -/
def isAddCbFor (i : Nat) : RAct → Bool
  | .addCb j => j = i
  | .complete _ _ => false

/-- Whether an action is a resolution completion. -/
def isCompleteAct : RAct → Bool
  | .addCb _ => false
  | .complete _ _ => true

/-- Apply one action to the resolver state. -/
def rstep (r : Resolver) : RAct → Resolver × List Fire
  | .addCb i => add_callback r i
  | .complete ec eps => resolveComplete r ec eps

/-- Run a sequence of actions, accumulating the callback invocations. -/
def runResolver (r : Resolver) : List RAct → Resolver × List Fire
  | [] => (r, [])
  | a :: as =>
    let p := rstep r a
    let q := runResolver p.1 as
    (q.1, p.2 ++ q.2)

/-- Full lifecycle of a Resolver constructed with a host/service pair:
run the actions, then destroy the resolver; the trace is every callback
invocation in order. -/
def resolverTrace (acts : List RAct) : List Fire :=
  let p := runResolver initResolver acts
  p.2 ++ destroyResolver p.1

/-- Connection::timeout (http.cpp lines 84-105) up to arming the timer:
on a closed connection it logs an error and returns without arming
anything and without throwing (the model is a total function); on an open
connection it arms (or re-arms) the single timer. -/
structure TimeoutArm where
  armed : Bool
  loggedClosedError : Bool
deriving DecidableEq

/-- The arming decision of Connection::timeout. -/
def connectionTimeout (isOpen : Bool) : TimeoutArm :=
  if isOpen = false then { armed := false, loggedClosedError := true }
  else { armed := true, loggedClosedError := false }

/-- The async_wait handler of Connection::timeout (lines 95-104):
operation-aborted (a canceled timer) returns before reaching the
callback; any other completion, error or not, reaches the callback with
its error code (after logging real errors). -/
def timeoutHandlerFires (ec : Ec) : Option Ec :=
  if ec = .operationAborted then none
  else some ec

/-- The whole timeout path: which error code (if any) the user callback
is invoked with, given the socket state at arming time and the timer
completion code. -/
def timeoutRun (isOpen : Bool) (ec : Ec) : Option Ec :=
  if (connectionTimeout isOpen).armed = false then none
  else timeoutHandlerFires ec

/-- A step is tame when it notifies DONE at most once, and whenever it
notifies DONE, DONE is its last notification and it leaves nothing
pending. -/
def TameStep (o : StepOut) : Prop :=
  o.ns.count HState.DONE ≤ 1 ∧
  (HState.DONE ∈ o.ns → o.ns.getLast? = some HState.DONE ∧ o.next = .idle)

theorem take_append_le {α : Type} : ∀ (n : Nat) (l1 l2 : List α),
    n ≤ l1.length → (l1 ++ l2).take n = l1.take n
  | 0, _, _, _ => rfl
  | n + 1, [], _, h => absurd h (by simp)
  | n + 1, a :: l1, l2, h => by
    simp only [List.cons_append, List.take_succ_cons]
    rw [take_append_le n l1 l2 (Nat.le_of_succ_le_succ h)]

theorem isConnLine_conn (v : String) : isConnLine ("Connection: " ++ v) = true := by
  have h : ("Connection: ".data ++ v.data).take 12 = "Connection: ".data := by
    rw [take_append_le 12 _ _ (by decide)]
    decide
  simp [isConnLine, h]

theorem isConnLine_contentLength (v : String) :
    isConnLine ("Content-Length: " ++ v) = false := by
  have h : ("Content-Length: ".data ++ v.data).take 12 = "Content-Length: ".data.take 12 :=
    take_append_le 12 _ _ (by decide)
  simp only [isConnLine, String.data_append, h]
  decide

theorem serialize_append (l1 l2 : List String) :
    serialize (l1 ++ l2) = serialize l1 ++ serialize l2 := by
  induction l1 with
  | nil => simp [serialize]
  | cons a l1 ih =>
    simp only [List.cons_append, serialize, List.append_eq, ih, String.append_assoc]

theorem bodySegments_no_conn (body : String) (hb : isConnLine body = false) :
    ∀ l ∈ bodySegments body, isConnLine l = false := by
  intro l hl
  unfold bodySegments at hl
  split at hl
  · simp only [List.mem_singleton] at hl
    subst hl
    decide
  · simp only [List.mem_cons, List.not_mem_nil, or_false] at hl
    rcases hl with h | h | h
    · subst h
      exact isConnLine_contentLength _
    · subst h
      decide
    · subst h
      exact hb

theorem build_segs_count (rl : String) (hls : List String) (cs body : String)
    (hrl : isConnLine rl = false) (hhs : ∀ l ∈ hls, isConnLine l = false)
    (hb : isConnLine body = false) :
    (([rl] ++ hls ++ ["Connection: " ++ cs] ++ bodySegments body).countP isConnLine = 1) ∧
    (∀ l ∈ [rl] ++ hls ++ ["Connection: " ++ cs] ++ bodySegments body,
      isConnLine l = true → l = "Connection: " ++ cs) := by
  constructor
  · have h1 : hls.countP isConnLine = 0 := List.countP_eq_zero.mpr (by
      intro a ha
      simp [hhs a ha])
    have h2 : (bodySegments body).countP isConnLine = 0 := List.countP_eq_zero.mpr (by
      intro a ha
      simp [bodySegments_no_conn body hb a ha])
    simp [List.countP_append, List.countP_cons, h1, h2, hrl, isConnLine_conn]
  · intro l hl hc
    simp only [List.append_assoc, List.mem_append, List.mem_singleton] at hl
    rcases hl with h | h | h | h
    · subst h
      rw [hrl] at hc
      cases hc
    · rw [hhs l h] at hc
      cases hc
    · exact h
    · rw [bodySegments_no_conn body hb l h] at hc
      cases hc

/-- C3 corrected: on the published claim, a user header registered for
the Connection field serializes as a second Connection line, so the
counterexample theorem shows two Connection header lines in one built
request.  This theorem is the amended claim: provided no user-registered
header line, the request line, nor the body serializes as a Connection
line, the built request contains exactly one Connection header line, its
value is exactly close or exactly keep-alive, any directive other than
keep-alive (the upgrade directive excepted, which makes build throw — the
only throw in the engine — and produce no request) is normalised to
close in both the wire string and the stored directive. -/
theorem build_single_connection_header (method target : String) (hM hm : Nat)
    (headers : List (String × String)) (ct : ConnType) (body : String) :
    (ct = .upgrade → build method target hM hm headers ct body = .error "upgrade") ∧
    (ct ≠ .upgrade →
      isConnLine (requestLine method target hM hm) = false →
      (∀ kv ∈ headers, isConnLine (headerLine kv) = false) →
      isConnLine body = false →
      ∃ segs ct2,
        buildSegments method target hM hm headers ct body = .ok (segs, ct2) ∧
        build method target hM hm headers ct body = .ok (serialize segs, ct2) ∧
        segs.countP isConnLine = 1 ∧
        (∀ l ∈ segs, isConnLine l = true →
          l = "Connection: close" ∨ l = "Connection: keep-alive") ∧
        (ct ≠ .keep_alive →
          (∀ l ∈ segs, isConnLine l = true → l = "Connection: close") ∧
          ct2 = .close)) := by
  constructor
  · intro h
    subst h
    rfl
  · intro hct hrl hhs hb
    have hhs2 : ∀ l ∈ headers.map headerLine, isConnLine l = false := by
      intro l hl
      rcases List.mem_map.mp hl with ⟨kv, hkv, rfl⟩
      exact hhs kv hkv
    cases ct with
    | upgrade => exact absurd rfl hct
    | close =>
      refine ⟨_, _, rfl, rfl, (build_segs_count _ _ "close" body hrl hhs2 hb).1, ?_, ?_⟩
      · intro l hl hc
        exact Or.inl ((build_segs_count _ _ "close" body hrl hhs2 hb).2 l hl hc)
      · intro _
        exact ⟨fun l hl hc => (build_segs_count _ _ "close" body hrl hhs2 hb).2 l hl hc, rfl⟩
    | keep_alive =>
      refine ⟨_, _, rfl, rfl, (build_segs_count _ _ "keep-alive" body hrl hhs2 hb).1, ?_, ?_⟩
      · intro l hl hc
        exact Or.inr ((build_segs_count _ _ "keep-alive" body hrl hhs2 hb).2 l hl hc)
      · intro h
        exact absurd rfl h

/-- C3 counterexample: registering the Connection field itself as a user
header makes Request::build serialize two Connection header lines
(http.cpp lines 339-340 emit the user header, lines 343-356 always append
another), so the published claim that every built request contains
exactly one Connection header is false as stated. -/
theorem build_duplicate_connection_header :
    buildSegments "GET" "/" 1 1 [("Connection", "upgrade")] ConnType.close "" =
      .ok (["GET / HTTP/1.1", "Connection: upgrade", "Connection: close", ""],
           ConnType.close) ∧
    (["GET / HTTP/1.1", "Connection: upgrade", "Connection: close",
      ""] : List String).countP isConnLine = 2 ∧
    build "GET" "/" 1 1 [("Connection", "upgrade")] ConnType.close "" =
      .ok ("GET / HTTP/1.1\r\nConnection: upgrade\r\nConnection: close\r\n\r\n",
           ConnType.close) := by
  refine ⟨rfl, by decide, rfl⟩

theorem serialize_with_body (A : List String) (body : String) (hb : body ≠ "") :
    serialize (A ++ bodySegments body) =
      serialize A ++ "Content-Length: " ++ toString body.length ++ "\r\n" ++ "\r\n"
        ++ body ++ "\r\n" := by
  unfold bodySegments
  rw [if_neg hb, serialize_append]
  simp only [serialize, crlf, String.append_assoc, String.append_empty, String.empty_append]

/-- C4: for every built request with a non-empty body, the serialized
Content-Length value is the decimal byte length of the body, the body
follows the blank line that ends the header block, and the message ends
with one more CRLF appended after the body. -/
theorem build_body_content_length (method target : String) (hM hm : Nat)
    (headers : List (String × String)) (ct : ConnType) (body : String)
    (hb : body ≠ "") (hct : ct ≠ .upgrade) :
    ∃ cs ct2, connStr ct = some cs ∧
      build method target hM hm headers ct body =
        .ok (serialize ([requestLine method target hM hm]
                ++ headers.map headerLine ++ ["Connection: " ++ cs])
              ++ "Content-Length: " ++ toString body.length ++ "\r\n" ++ "\r\n"
              ++ body ++ "\r\n", ct2) := by
  cases ct with
  | upgrade => exact absurd rfl hct
  | close =>
    refine ⟨"close", .close, rfl, ?_⟩
    simp only [build, buildSegments, connStr, Except.map]
    rw [serialize_with_body _ body hb]
    rfl
  | keep_alive =>
    refine ⟨"keep-alive", .keep_alive, rfl, ?_⟩
    simp only [build, buildSegments, connStr, Except.map]
    rw [serialize_with_body _ body hb]
    rfl

/-- C2: Request::terminate maps no-error, end-of-file and
operation-aborted to response status 200 and every other error code to
status 0, and in every case notifies exactly the DONE state change,
leaving no operation pending. -/
theorem terminate_outcome (rq : Req) (ec : Ec) :
    ((terminate rq ec).rq.resp.status_code =
      if ec = .ok ∨ ec = .eof ∨ ec = .operationAborted then 200 else 0) ∧
    (terminate rq ec).ns = [HState.DONE] ∧
    (terminate rq ec).next = .idle := by
  exact ⟨rfl, rfl, rfl⟩

/-- C9: Connection::timeout on an already-closed connection is a no-op
that only logs (the model is a total function, mirroring that the source
path throws nothing): the timer is not armed and the callback can never
be invoked; and a canceled armed timer (operation-aborted completion)
returns before invoking the callback, so cancellation is never observed
as a real timeout. -/
theorem timeout_closed_and_aborted_noop (ec : Ec) (isOpen : Bool) :
    (connectionTimeout false).armed = false ∧
    (connectionTimeout false).loggedClosedError = true ∧
    timeoutRun false ec = none ∧
    timeoutRun isOpen Ec.operationAborted = none := by
  refine ⟨rfl, rfl, rfl, ?_⟩
  cases isOpen <;> rfl

/-- C7: a parse error reported by the byte parser inside
Request::parse_request is only logged: the result of parse_request does
not depend on the parser error flag, parse_request issues no state-change
notification (hence never invokes terminate, which always notifies DONE),
feeds the parser exactly the buffer it was given, and the two response
handlers that call it are likewise independent of the parser error
flags. -/
theorem parse_error_only_logged (resp : Response) (hf s : String)
    (evs : List ParseEvent) (b b1 b2 b3 b4 : Bool) (rq : Req) (connOpen : Bool)
    (ec : Ec) (data : String) (nbytes : Nat) (chunk : String)
    (hevs bevs : List ParseEvent) :
    parse_request resp hf s evs b = parse_request resp hf s evs false ∧
    (parse_request resp hf s evs b).ns = [] ∧
    (parse_request resp hf s evs b).fed = [s] ∧
    handle_response_body rq connOpen ec data nbytes chunk bevs b1 =
      handle_response_body rq connOpen ec data nbytes chunk bevs b2 ∧
    handle_response_header rq connOpen ec data nbytes hevs b1 bevs b3 =
      handle_response_header rq connOpen ec data nbytes hevs b2 bevs b4 := by
  exact ⟨rfl, rfl, rfl, rfl, rfl⟩

theorem applyEvents_body_const (evs : List ParseEvent) :
    ∀ p : Response × String, (∀ s, ParseEvent.body s ∉ evs) →
      (applyEvents p evs).1.body = p.1.body := by
  induction evs with
  | nil =>
    intro p _
    rfl
  | cons e rest ih =>
    intro p h
    have h1 : ∀ s, ParseEvent.body s ∉ rest := fun s hs => h s (List.mem_cons_of_mem _ hs)
    have h2 : (applyEvents p (e :: rest)).1.body = (applyEvents (applyEvent p e) rest).1.body := by
      simp [applyEvents]
    rw [h2, ih (applyEvent p e) h1]
    cases e with
    | status c => rfl
    | headerField s => rfl
    | headerValue s => rfl
    | body s => exact absurd (List.mem_cons_self (ParseEvent.body s) rest) (h s)

theorem afterBody_fed (rq : Req) : (afterBody rq).fed = [] := by
  unfold afterBody
  split
  · rfl
  · split <;> rfl

theorem afterBody_body (rq : Req) : (afterBody rq).rq.resp.body = rq.resp.body := by
  unfold afterBody
  split
  · rfl
  · split <;> rfl

theorem afterBody_headers (rq : Req) :
    (afterBody rq).rq.resp.headers = rq.resp.headers := by
  unfold afterBody
  split
  · rfl
  · split <;> rfl

theorem afterBody_keepalive (rq : Req)
    (h : hfindD rq.resp.headers "Connection" = "keep-alive") :
    afterBody rq = { rq := rq, ns := [], fed := [], next := .readBody "" .atLeastOne } := by
  unfold afterBody
  rw [if_pos h]

theorem afterBody_not_keepalive (rq : Req)
    (h : ¬ hfindD rq.resp.headers "Connection" = "keep-alive") :
    (afterBody rq).next = .idle := by
  unfold afterBody
  rw [if_neg h]
  split
  · rfl
  · rfl

/-- C6: when the response carries a Content-Length header, each
successive body read requests exactly the remaining byte count (declared
value minus accumulated body length) and carries the accumulated body
along; once the accumulated length equals the declared value, the
accumulated body is stored into the Response and fed to the parser as a
whole, and a further read is issued only when the response also signals
Connection keep-alive (otherwise nothing further is scheduled: the
request terminates or goes idle). -/
theorem body_framing_by_content_length (rq : Req) (data : String) (nbytes : Nat)
    (chunk : String) (bevs : List ParseEvent) (bperr : Bool) (clv : String)
    (hcl : hfind rq.resp.headers "Content-Length" = some clv) :
    (atoiU32 clv > (chunk ++ data.take nbytes).length →
      handle_response_body rq true .ok data nbytes chunk bevs bperr =
        { rq := rq, ns := [], fed := [],
          next := .readBody (chunk ++ data.take nbytes)
            (.exactly (atoiU32 clv - (chunk ++ data.take nbytes).length)) }) ∧
    (atoiU32 clv = (chunk ++ data.take nbytes).length →
      ((handle_response_body rq true .ok data nbytes chunk bevs bperr).fed =
        [chunk ++ data.take nbytes] ∧
      (handle_response_body rq true .ok data nbytes chunk bevs bperr).rq.resp.body =
        (parse_request { rq.resp with body := chunk ++ data.take nbytes }
          rq.header_field (chunk ++ data.take nbytes) bevs bperr).resp.body ∧
      ((∀ s, ParseEvent.body s ∉ bevs) →
        (handle_response_body rq true .ok data nbytes chunk bevs bperr).rq.resp.body =
          chunk ++ data.take nbytes) ∧
      (hfindD (parse_request { rq.resp with body := chunk ++ data.take nbytes }
            rq.header_field (chunk ++ data.take nbytes) bevs bperr).resp.headers
          "Connection" = "keep-alive" →
        (handle_response_body rq true .ok data nbytes chunk bevs bperr).next =
          .readBody "" .atLeastOne) ∧
      (¬ hfindD (parse_request { rq.resp with body := chunk ++ data.take nbytes }
            rq.header_field (chunk ++ data.take nbytes) bevs bperr).resp.headers
          "Connection" = "keep-alive" →
        (handle_response_body rq true .ok data nbytes chunk bevs bperr).next = .idle))) := by
  constructor
  · intro h
    simp only [handle_response_body, hcl]
    rw [if_neg (by decide), if_neg (by decide), if_neg (by decide), if_pos h]
  · intro h
    have e1 : handle_response_body rq true .ok data nbytes chunk bevs bperr =
        { rq := (afterBody (storeParse rq (chunk ++ data.take nbytes) bevs bperr).1).rq,
          ns := (storeParse rq (chunk ++ data.take nbytes) bevs bperr).2.1
            ++ (afterBody (storeParse rq (chunk ++ data.take nbytes) bevs bperr).1).ns,
          fed := (storeParse rq (chunk ++ data.take nbytes) bevs bperr).2.2
            ++ (afterBody (storeParse rq (chunk ++ data.take nbytes) bevs bperr).1).fed,
          next := (afterBody (storeParse rq (chunk ++ data.take nbytes) bevs bperr).1).next } := by
      simp only [handle_response_body, hcl]
      rw [if_neg (by decide), if_neg (by decide), if_neg (by decide),
        if_neg (by simp [h]), if_pos h]
    have hsp1 : (storeParse rq (chunk ++ data.take nbytes) bevs bperr).1.resp =
        (parse_request { rq.resp with body := chunk ++ data.take nbytes }
          rq.header_field (chunk ++ data.take nbytes) bevs bperr).resp := by
      simp [storeParse]
    refine ⟨?_, ?_, ?_, ?_, ?_⟩
    · rw [e1, afterBody_fed]
      simp [storeParse, parse_request]
    · rw [e1]
      show (afterBody _).rq.resp.body = _
      rw [afterBody_body, hsp1]
    · intro hnb
      rw [e1]
      show (afterBody _).rq.resp.body = _
      rw [afterBody_body, hsp1]
      simp only [parse_request]
      exact applyEvents_body_const bevs _ hnb
    · intro hka
      rw [e1]
      show (afterBody _).next = _
      rw [afterBody_keepalive _ (by rw [hsp1]; exact hka)]
    · intro hka
      rw [e1]
      show (afterBody _).next = _
      exact afterBody_not_keepalive _ (by rw [hsp1]; exact hka)

theorem body_framing_by_content_length_witness :
    handle_response_body
      { connection_type := .close,
        resp := { status_code := 0, headers := [("Content-Length", "5")], body := "" },
        header_field := "" } true .ok "hel" 3 "" [] false =
      { rq := { connection_type := .close,
                resp := { status_code := 0, headers := [("Content-Length", "5")], body := "" },
                header_field := "" },
        ns := [], fed := [],
        next := .readBody ("" ++ "hel".take 3)
          (.exactly (atoiU32 "5" - ("" ++ "hel".take 3).length)) } :=
  (body_framing_by_content_length
    { connection_type := .close,
      resp := { status_code := 0, headers := [("Content-Length", "5")], body := "" },
      header_field := "" } "hel" 3 "" [] false "5" (by decide)).1 (by decide)

/-- C8: a response whose parsed header block signals neither Connection
keep-alive nor any Content-Length makes handle_response_header, for a
request whose connection-type directive is close, terminate immediately
on the header delimiter: one HEADER_RECEIVED then one DONE notification,
a successful outcome (status 200 through terminate with end-of-file), no
body read scheduled, only the header block fed to the parser, and a
zero-length body when the request body was empty and the header block
parses without body events. -/
theorem header_without_framing_close_terminates (rq : Req) (data : String)
    (nbytes : Nat) (hevs : List ParseEvent) (hperr : Bool)
    (bevs : List ParseEvent) (bperr : Bool)
    (hclose : rq.connection_type = .close)
    (hka : ¬ hfindD (parse_request rq.resp rq.header_field (data.take nbytes)
        hevs hperr).resp.headers "Connection" = "keep-alive")
    (hnocl : hfind (parse_request rq.resp rq.header_field (data.take nbytes)
        hevs hperr).resp.headers "Content-Length" = none) :
    handle_response_header rq true .ok data nbytes hevs hperr bevs bperr =
      { rq := { connection_type := rq.connection_type,
                resp := { (parse_request rq.resp rq.header_field (data.take nbytes)
                    hevs hperr).resp with status_code := 200 },
                header_field := (parse_request rq.resp rq.header_field (data.take nbytes)
                    hevs hperr).hf },
        ns := [.HEADER_RECEIVED, .DONE], fed := [data.take nbytes], next := .idle } ∧
    (rq.resp.body = "" → (∀ s, ParseEvent.body s ∉ hevs) →
      (handle_response_header rq true .ok data nbytes hevs hperr bevs bperr).rq.resp.body
        = "") := by
  have e1 : handle_response_header rq true .ok data nbytes hevs hperr bevs bperr =
      { rq := { connection_type := rq.connection_type,
                resp := { (parse_request rq.resp rq.header_field (data.take nbytes)
                    hevs hperr).resp with status_code := 200 },
                header_field := (parse_request rq.resp rq.header_field (data.take nbytes)
                    hevs hperr).hf },
        ns := [.HEADER_RECEIVED, .DONE], fed := [data.take nbytes], next := .idle } := by
    simp only [handle_response_header]
    rw [if_neg (by decide), if_neg (by decide), if_neg (by decide),
      if_neg (by simp [hka, hnocl]), if_pos hclose]
    simp [terminate, parse_request]
  refine ⟨e1, ?_⟩
  intro hb0 hnb
  rw [e1]
  show (parse_request rq.resp rq.header_field (data.take nbytes) hevs hperr).resp.body = ""
  simp only [parse_request]
  rw [applyEvents_body_const hevs _ hnb]
  exact hb0

theorem header_without_framing_close_terminates_witness :
    handle_response_header { connection_type := .close } true .ok "HH\r\n\r\n" 6
        [.status 200] false [] false =
      { rq := { connection_type := ConnType.close,
                resp := { (parse_request ({} : Response) "" ("HH\r\n\r\n".take 6)
                    [.status 200] false).resp with status_code := 200 },
                header_field := (parse_request ({} : Response) "" ("HH\r\n\r\n".take 6)
                    [.status 200] false).hf },
        ns := [.HEADER_RECEIVED, .DONE], fed := ["HH\r\n\r\n".take 6], next := .idle } ∧
    (({} : Response).body = "" → (∀ s, ParseEvent.body s ∉ [ParseEvent.status 200]) →
      (handle_response_header { connection_type := .close } true .ok "HH\r\n\r\n" 6
        [.status 200] false [] false).rq.resp.body = "") :=
  header_without_framing_close_terminates { connection_type := .close } "HH\r\n\r\n" 6
    [.status 200] false [] false rfl (by decide) (by decide)

/-- C10: when a numeric Content-Length is present and the accumulated
body strictly exceeds it, handle_response_body neither stores the bytes
into the Response nor feeds the parser; it silently falls through to the
keep-alive tail: it schedules a further at-least-one-byte read exactly
when the response declared Connection keep-alive, terminates successfully
when the connection-type directive is close, and otherwise goes idle. -/
theorem body_overflow_falls_through (rq : Req) (data : String) (nbytes : Nat)
    (chunk : String) (bevs : List ParseEvent) (bperr : Bool) (clv : String)
    (hcl : hfind rq.resp.headers "Content-Length" = some clv)
    (hlt : atoiU32 clv < (chunk ++ data.take nbytes).length) :
    handle_response_body rq true .ok data nbytes chunk bevs bperr = afterBody rq ∧
    (handle_response_body rq true .ok data nbytes chunk bevs bperr).fed = [] ∧
    (handle_response_body rq true .ok data nbytes chunk bevs bperr).rq.resp.body =
      rq.resp.body ∧
    (handle_response_body rq true .ok data nbytes chunk bevs bperr).rq.resp.headers =
      rq.resp.headers ∧
    (hfindD rq.resp.headers "Connection" = "keep-alive" →
      handle_response_body rq true .ok data nbytes chunk bevs bperr =
        { rq := rq, ns := [], fed := [], next := .readBody "" .atLeastOne }) ∧
    (¬ hfindD rq.resp.headers "Connection" = "keep-alive" →
      rq.connection_type = .close →
      handle_response_body rq true .ok data nbytes chunk bevs bperr =
        terminate rq .eof ∧
      (terminate rq .eof).ns = [HState.DONE] ∧
      (terminate rq .eof).rq.resp.status_code = 200) ∧
    (¬ hfindD rq.resp.headers "Connection" = "keep-alive" →
      rq.connection_type ≠ .close →
      handle_response_body rq true .ok data nbytes chunk bevs bperr =
        { rq := rq, ns := [], fed := [], next := .idle }) := by
  have e1 : handle_response_body rq true .ok data nbytes chunk bevs bperr =
      afterBody rq := by
    simp only [handle_response_body, hcl]
    rw [if_neg (by decide), if_neg (by decide), if_neg (by decide),
      if_neg (Nat.lt_asymm hlt), if_neg (Nat.ne_of_lt hlt)]
  refine ⟨e1, ?_, ?_, ?_, ?_, ?_, ?_⟩
  · rw [e1, afterBody_fed]
  · rw [e1, afterBody_body]
  · rw [e1, afterBody_headers]
  · intro hka
    rw [e1, afterBody_keepalive rq hka]
  · intro hka hcls
    rw [e1]
    unfold afterBody
    rw [if_neg hka, if_pos hcls]
    exact ⟨rfl, rfl, rfl⟩
  · intro hka hcls
    rw [e1]
    unfold afterBody
    rw [if_neg hka, if_neg hcls]

theorem body_overflow_falls_through_witness :
    handle_response_body
      { connection_type := .keep_alive,
        resp := { status_code := 0, headers := [("Content-Length", "1")], body := "" },
        header_field := "" } true .ok "ab" 2 "" [] false =
      afterBody
        { connection_type := .keep_alive,
          resp := { status_code := 0, headers := [("Content-Length", "1")], body := "" },
          header_field := "" } ∧
    (handle_response_body
      { connection_type := .keep_alive,
        resp := { status_code := 0, headers := [("Content-Length", "1")], body := "" },
        header_field := "" } true .ok "ab" 2 "" [] false).fed = [] :=
  (fun h => ⟨h.1, h.2.1⟩)
    (body_overflow_falls_through
      { connection_type := .keep_alive,
        resp := { status_code := 0, headers := [("Content-Length", "1")], body := "" },
        header_field := "" } "ab" 2 "" [] false "1" (by decide) (by decide))

theorem runResolver_append (l1 l2 : List RAct) (r : Resolver) :
    runResolver r (l1 ++ l2) =
      ((runResolver (runResolver r l1).1 l2).1,
       (runResolver r l1).2 ++ (runResolver (runResolver r l1).1 l2).2) := by
  induction l1 generalizing r with
  | nil => simp [runResolver]
  | cons a l1 ih =>
    simp [runResolver, ih]

theorem fires_count (i : Nat) : ∀ (acts : List RAct) (r : Resolver),
    ((runResolver r acts).2 ++ destroyResolver (runResolver r acts).1).countP
        (fun f => f.cb == i) =
      r.cbs.countP (fun j => j == i) + acts.countP (isAddCbFor i) := by
  intro acts
  induction acts with
  | nil =>
    intro r
    simp only [runResolver, destroyResolver, List.nil_append, List.countP_map,
      List.countP_nil, Nat.add_zero]
    rfl
  | cons a acts ih =>
    intro r
    cases a with
    | addCb j =>
      by_cases hc : r.completed = false
      · have hstep : rstep r (.addCb j) = ({ r with cbs := r.cbs ++ [j] }, []) := by
          simp [rstep, add_callback, hc]
        have := ih { r with cbs := r.cbs ++ [j] }
        simp only [runResolver, hstep] at *
        rw [List.nil_append, this]
        simp [List.countP_append, List.countP_cons, isAddCbFor]
        omega
      · have hstep : rstep r (.addCb j) =
            (r, [{ cb := j, ec := r.ec, endpoints := r.endpoints }]) := by
          simp [rstep, add_callback, hc]
        have := ih r
        simp only [runResolver, hstep]
        rw [List.append_assoc, List.countP_append, this]
        simp [List.countP_cons, isAddCbFor]
        omega
    | complete ec eps =>
      have hstep : rstep r (.complete ec eps) =
          ({ completed := true, ec := ec, endpoints := eps, cbs := [] },
           r.cbs.map (fun k => { cb := k, ec := ec, endpoints := eps })) := by
        simp [rstep, resolveComplete]
      have := ih { completed := true, ec := ec, endpoints := eps, cbs := [] }
      simp only [runResolver, hstep]
      rw [List.append_assoc, List.countP_append, this]
      simp only [List.countP_map, List.countP_cons, isAddCbFor]
      have hcomp : List.countP ((fun f => f.cb == i) ∘ fun k =>
          ({ cb := k, ec := ec, endpoints := eps } : Fire)) r.cbs =
          List.countP (fun j => j == i) r.cbs := rfl
      rw [hcomp]
      simp

theorem runResolver_no_complete (acts : List RAct) :
    ∀ r : Resolver, r.completed = false → (∀ a ∈ acts, isCompleteAct a = false) →
      (runResolver r acts).2 = [] ∧ (runResolver r acts).1.completed = false := by
  induction acts with
  | nil =>
    intro r h _
    exact ⟨rfl, h⟩
  | cons a acts ih =>
    intro r h hall
    cases a with
    | addCb j =>
      have hstep : rstep r (.addCb j) = ({ r with cbs := r.cbs ++ [j] }, []) := by
        simp [rstep, add_callback, h]
      obtain ⟨h1, h2⟩ := ih { r with cbs := r.cbs ++ [j] } h
        (fun b hb => hall b (List.mem_cons_of_mem _ hb))
      simp only [runResolver, hstep]
      exact ⟨by simp [h1], h2⟩
    | complete ec eps =>
      exact absurd (hall _ (List.mem_cons_self _ _)) (by simp [isCompleteAct])

theorem runResolver_completed (acts : List RAct) :
    ∀ r : Resolver, r.completed = true → (∀ a ∈ acts, isCompleteAct a = false) →
      (runResolver r acts).1 = r ∧
      (∀ f ∈ (runResolver r acts).2, f.ec = r.ec ∧ f.endpoints = r.endpoints) := by
  induction acts with
  | nil =>
    intro r _ _
    exact ⟨rfl, by simp [runResolver]⟩
  | cons a acts ih =>
    intro r h hall
    cases a with
    | addCb j =>
      have hc : ¬ r.completed = false := by simp [h]
      have hstep : rstep r (.addCb j) =
          (r, [{ cb := j, ec := r.ec, endpoints := r.endpoints }]) := by
        simp [rstep, add_callback, hc]
      obtain ⟨h1, h2⟩ := ih r h (fun b hb => hall b (List.mem_cons_of_mem _ hb))
      simp only [runResolver, hstep]
      refine ⟨h1, ?_⟩
      intro f hf
      rcases List.mem_append.mp hf with hf | hf
      · rcases List.mem_singleton.mp hf with rfl
        exact ⟨rfl, rfl⟩
      · exact h2 f hf
    | complete ec eps =>
      exact absurd (hall _ (List.mem_cons_self _ _)) (by simp [isCompleteAct])

/-- C5: for a Resolver whose resolution runs at most once (the source
starts it exactly once, from the constructor), every callback registered
exactly once fires exactly once over the resolver lifetime; when the
lifetime contains no completion, every invocation carries the
cancellation error (operation-aborted) and an empty endpoint set (the
destructor path); when the lifetime contains the completion with a given
error and endpoint set, every invocation carries exactly that cached
error and endpoint set, whether the callback was registered before the
completion (queued, flushed on completion in FIFO order) or after it
(invoked synchronously with the cached result). -/
theorem resolver_callback_fires_once (acts : List RAct) (i : Nat)
    (hadd : acts.countP (isAddCbFor i) = 1)
    (hcompl : acts.countP isCompleteAct ≤ 1) :
    ((resolverTrace acts).countP (fun f => f.cb == i) = 1) ∧
    ((∀ a ∈ acts, isCompleteAct a = false) →
      ∀ f ∈ resolverTrace acts, f.ec = .operationAborted ∧ f.endpoints = []) ∧
    (∀ ec eps, RAct.complete ec eps ∈ acts →
      ∀ f ∈ resolverTrace acts, f.ec = ec ∧ f.endpoints = eps) := by
  refine ⟨?_, ?_, ?_⟩
  · have h := fires_count i acts initResolver
    simp only [resolverTrace]
    rw [h]
    simp [initResolver, hadd]
  · intro hnoc f hf
    obtain ⟨h1, _⟩ := runResolver_no_complete acts initResolver rfl hnoc
    simp only [resolverTrace, h1, List.nil_append] at hf
    simp only [destroyResolver, List.mem_map] at hf
    obtain ⟨j, _, rfl⟩ := hf
    exact ⟨rfl, rfl⟩
  · intro ec eps hmem f hf
    obtain ⟨s, t, rfl⟩ := List.append_of_mem hmem
    have hs0 : s.countP isCompleteAct = 0 ∧ t.countP isCompleteAct = 0 := by
      rw [List.countP_append, List.countP_cons] at hcompl
      simp [isCompleteAct] at hcompl
      omega
    have hsall : ∀ a ∈ s, isCompleteAct a = false := by
      intro a ha
      have := List.countP_eq_zero.mp hs0.1 a ha
      simpa using this
    have htall : ∀ a ∈ t, isCompleteAct a = false := by
      intro a ha
      have := List.countP_eq_zero.mp hs0.2 a ha
      simpa using this
    obtain ⟨hf1, hf2⟩ := runResolver_no_complete s initResolver rfl hsall
    have hr1 : rstep (runResolver initResolver s).1 (.complete ec eps) =
        ({ completed := true, ec := ec, endpoints := eps, cbs := [] },
         (runResolver initResolver s).1.cbs.map
           (fun k => { cb := k, ec := ec, endpoints := eps })) := by
      simp [rstep, resolveComplete]
    obtain ⟨hg1, hg2⟩ := runResolver_completed t
      { completed := true, ec := ec, endpoints := eps, cbs := [] } rfl htall
    have htrace : resolverTrace (s ++ RAct.complete ec eps :: t) =
        (runResolver initResolver s).1.cbs.map
            (fun k => { cb := k, ec := ec, endpoints := eps })
          ++ (runResolver { completed := true, ec := ec, endpoints := eps, cbs := [] } t).2 := by
      simp only [resolverTrace, runResolver_append, runResolver, hr1, hf1, hg1]
      simp [destroyResolver]
    rw [htrace] at hf
    rcases List.mem_append.mp hf with hf | hf
    · simp only [List.mem_map] at hf
      obtain ⟨j, _, rfl⟩ := hf
      exact ⟨rfl, rfl⟩
    · exact hg2 f hf

theorem resolver_callback_fires_once_witness :
    ((resolverTrace [RAct.addCb 7]).countP (fun f => f.cb == 7) = 1) ∧
    ((∀ a ∈ [RAct.addCb 7], isCompleteAct a = false) →
      ∀ f ∈ resolverTrace [RAct.addCb 7], f.ec = .operationAborted ∧ f.endpoints = []) ∧
    (∀ ec eps, RAct.complete ec eps ∈ [RAct.addCb 7] →
      ∀ f ∈ resolverTrace [RAct.addCb 7], f.ec = ec ∧ f.endpoints = eps) :=
  resolver_callback_fires_once [RAct.addCb 7] 7 (by decide) (by decide)

theorem tame_not_done (o : StepOut) (h : HState.DONE ∉ o.ns) : TameStep o := by
  constructor
  · rw [List.count_eq_zero.mpr h]
    exact Nat.zero_le 1
  · intro hmem
    exact absurd hmem h

theorem tame_done_last (o : StepOut) (l : List HState) (h : o.ns = l ++ [HState.DONE])
    (hl : HState.DONE ∉ l) (hn : o.next = .idle) : TameStep o := by
  constructor
  · rw [h, List.count_append, List.count_eq_zero.mpr hl]
    simp
  · intro _
    exact ⟨by rw [h, List.getLast?_concat], hn⟩

theorem tame_terminate (rq : Req) (ec : Ec) : TameStep (terminate rq ec) :=
  tame_done_last _ [] rfl (by simp) rfl

theorem afterBody_shape (rq : Req) :
    (afterBody rq).ns = [] ∨
    ((afterBody rq).ns = [HState.DONE] ∧ (afterBody rq).next = .idle) := by
  unfold afterBody
  split
  · exact Or.inl rfl
  · split
    · exact Or.inr ⟨rfl, rfl⟩
    · exact Or.inl rfl

theorem hrb_shape (rq : Req) (connOpen : Bool) (ec : Ec) (data : String)
    (nbytes : Nat) (chunk : String) (bevs : List ParseEvent) (bperr : Bool) :
    (handle_response_body rq connOpen ec data nbytes chunk bevs bperr).ns = [] ∨
    ((handle_response_body rq connOpen ec data nbytes chunk bevs bperr).ns =
        [HState.DONE] ∧
      (handle_response_body rq connOpen ec data nbytes chunk bevs bperr).next = .idle) := by
  simp only [handle_response_body]
  split
  · exact Or.inr ⟨rfl, rfl⟩
  split
  · exact Or.inr ⟨rfl, rfl⟩
  split
  · exact Or.inr ⟨rfl, rfl⟩
  split
  · split
    · exact Or.inl rfl
    split
    · have hsp : (storeParse rq (chunk ++ data.take nbytes) bevs bperr).2.1 = [] := by
        simp [storeParse, parse_request]
      rw [hsp, List.nil_append]
      exact afterBody_shape _
    · exact afterBody_shape _
  · split
    · exact afterBody_shape _
    · have hsp : (storeParse rq (chunk ++ data.take nbytes) bevs bperr).2.1 = [] := by
        simp [storeParse, parse_request]
      rw [hsp, List.nil_append]
      exact afterBody_shape _

theorem tame_hrb (rq : Req) (connOpen : Bool) (ec : Ec) (data : String)
    (nbytes : Nat) (chunk : String) (bevs : List ParseEvent) (bperr : Bool) :
    TameStep (handle_response_body rq connOpen ec data nbytes chunk bevs bperr) := by
  rcases hrb_shape rq connOpen ec data nbytes chunk bevs bperr with h | ⟨h1, h2⟩
  · exact tame_not_done _ (by simp [h])
  · exact tame_done_last _ [] (by simp [h1]) (by simp) h2

theorem tame_hrh (rq : Req) (connOpen : Bool) (ec : Ec) (data : String)
    (nbytes : Nat) (hevs : List ParseEvent) (hperr : Bool)
    (bevs : List ParseEvent) (bperr : Bool) :
    TameStep (handle_response_header rq connOpen ec data nbytes hevs hperr bevs bperr) := by
  simp only [handle_response_header]
  split
  · exact tame_terminate _ _
  split
  · exact tame_terminate _ _
  split
  · exact tame_terminate _ _
  have hpo : (parse_request rq.resp rq.header_field (data.take nbytes) hevs hperr).ns
      = [] := by
    simp [parse_request]
  split
  · split
    · exact tame_not_done _ (by simp [hpo])
    · rcases hrb_shape { rq with
          resp := (parse_request rq.resp rq.header_field (data.take nbytes) hevs hperr).resp,
          header_field :=
            (parse_request rq.resp rq.header_field (data.take nbytes) hevs hperr).hf }
          connOpen .ok "" (data.drop nbytes).length (data.drop nbytes) bevs bperr
        with h | ⟨h1, h2⟩
      · exact tame_not_done _ (by simp [hpo, h])
      · exact tame_done_last _ [HState.HEADER_RECEIVED, HState.RECEIVING]
          (by simp [hpo, h1]) (by simp) h2
  split
  · exact tame_done_last _ [HState.HEADER_RECEIVED] (by simp [hpo, terminate]) (by simp) rfl
  · exact tame_not_done _ (by simp [hpo])

theorem tame_post (rq : Req) (connOpen : Bool) : TameStep (post rq connOpen) := by
  unfold post
  split
  · exact tame_terminate _ _
  split
  · exact tame_not_done _ (by simp)
  · exact tame_not_done _ (by simp)

theorem tame_on_resolved (rq : Req) (ec : Ec) (eps : List Nat) (connOpen : Bool) :
    TameStep (on_resolved rq ec eps connOpen) := by
  unfold on_resolved
  split
  · exact tame_terminate _ _
  split
  · split
    · exact tame_terminate _ _
    · exact tame_not_done _ (by simp)
  · exact tame_post _ _

theorem tame_on_connected (rq : Req) (ec : Ec) (connOpen : Bool) :
    TameStep (on_connected rq ec connOpen) := by
  unfold on_connected
  split
  · exact tame_terminate _ _
  · exact tame_post _ _

theorem tame_handle_request (rq : Req) (connOpen : Bool) (ec : Ec) :
    TameStep (handle_request rq connOpen ec) := by
  unfold handle_request
  split
  · exact tame_terminate _ _
  split
  · exact tame_terminate _ _
  · exact tame_not_done _ (by simp)

theorem tame_step (rq : Req) (p : Pending) (e : Ev) : TameStep (step rq p e) := by
  cases p <;> cases e <;>
    first
      | exact tame_on_resolved _ _ _ _
      | exact tame_on_connected _ _ _
      | exact tame_handle_request _ _ _
      | exact tame_hrh _ _ _ _ _ _ _ _ _
      | exact tame_hrb _ _ _ _ _ _ _ _
      | exact tame_not_done _ (by simp [step])

theorem runFrom_idle (evs : List Ev) : ∀ rq : Req,
    runFrom rq .idle evs = { rq := rq, next := .idle, trace := [] } := by
  induction evs with
  | nil =>
    intro rq
    rfl
  | cons e es ih =>
    intro rq
    have hstep : step rq .idle e = { rq := rq, ns := [], fed := [], next := .idle } := by
      cases e <;> rfl
    simp [runFrom, hstep, ih]

theorem runFrom_tame (evs : List Ev) : ∀ (rq : Req) (p : Pending),
    ((runFrom rq p evs).trace.count HState.DONE ≤ 1) ∧
    (HState.DONE ∈ (runFrom rq p evs).trace →
      (runFrom rq p evs).trace.getLast? = some HState.DONE ∧
      (runFrom rq p evs).next = .idle) := by
  induction evs with
  | nil =>
    intro rq p
    exact ⟨by simp [runFrom], by simp [runFrom]⟩
  | cons e es ih =>
    intro rq p
    have hstep := tame_step rq p e
    have hunf : runFrom rq p (e :: es) =
        { rq := (runFrom (step rq p e).rq (step rq p e).next es).rq,
          next := (runFrom (step rq p e).rq (step rq p e).next es).next,
          trace := (step rq p e).ns
            ++ (runFrom (step rq p e).rq (step rq p e).next es).trace } := by
      simp [runFrom]
    by_cases hd : HState.DONE ∈ (step rq p e).ns
    · obtain ⟨hlast, hidle⟩ := hstep.2 hd
      have hrest : runFrom (step rq p e).rq (step rq p e).next es =
          { rq := (step rq p e).rq, next := .idle, trace := [] } := by
        rw [hidle]
        exact runFrom_idle es _
      rw [hunf, hrest]
      exact ⟨by simpa using hstep.1, fun _ => ⟨by simpa using hlast, rfl⟩⟩
    · rw [hunf]
      obtain ⟨ih1, ih2⟩ := ih (step rq p e).rq (step rq p e).next
      constructor
      · simp only [List.count_append, List.count_eq_zero.mpr hd, Nat.zero_add]
        exact ih1
      · intro hmem
        have hmem2 : HState.DONE ∈ (runFrom (step rq p e).rq (step rq p e).next es).trace := by
          rcases List.mem_append.mp hmem with h | h
          · exact absurd h hd
          · exact h
        obtain ⟨h1, h2⟩ := ih2 hmem2
        refine ⟨?_, h2⟩
        rw [List.getLast?_append, h1]
        rfl

/-- C1 amended: over every execution of a Request, the DONE state-change
notification is delivered at most once, and when it is delivered it is
the last state-change notification and nothing is left pending.  The
original exactly-once guarantee fails: the counterexample theorem shows a
fully completed execution (the response body satisfied its
Content-Length, nothing left pending, so no completion can ever fire
again) on which DONE is never delivered, because the request directive is
keep-alive while the response signals neither keep-alive nor anything
further to read. -/
theorem done_at_most_once (ct : ConnType) (evs : List Ev) :
    ((send ct evs).trace.count HState.DONE ≤ 1) ∧
    (HState.DONE ∈ (send ct evs).trace →
      (send ct evs).trace.getLast? = some HState.DONE ∧
      (send ct evs).next = .idle) := by
  obtain ⟨h1, h2⟩ := runFrom_tame evs { connection_type := ct } .resolve
  have hsend : send ct evs =
      { rq := (runFrom { connection_type := ct } .resolve evs).rq,
        next := (runFrom { connection_type := ct } .resolve evs).next,
        trace := HState.CREATED
          :: (runFrom { connection_type := ct } .resolve evs).trace } := by
    simp [send]
  rw [hsend]
  constructor
  · simpa [List.count_cons] using h1
  · intro hmem
    have hmem2 : HState.DONE ∈ (runFrom { connection_type := ct } .resolve evs).trace := by
      simpa using hmem
    obtain ⟨hg1, hg2⟩ := h2 hmem2
    refine ⟨?_, hg2⟩
    show (HState.CREATED :: (runFrom { connection_type := ct } .resolve evs).trace).getLast?
      = some HState.DONE
    rw [show (HState.CREATED :: (runFrom { connection_type := ct } .resolve evs).trace)
        = [HState.CREATED] ++ (runFrom { connection_type := ct } .resolve evs).trace
      from rfl]
    rw [List.getLast?_append, hg1]
    rfl

/-- C1 counterexample: a concrete, fully completed execution on which
DONE is never notified.  The request directive is keep-alive; resolution
and connection succeed, the request is written, the response header
carries Content-Length 5 with no Connection header, and the 5 body bytes
arrive in the same read as the header delimiter.  The body completes
(stored and parsed), yet the handler returns with nothing pending — no
completion can ever be delivered again — and the trace contains no DONE,
refuting the claim that DONE is reached exactly once on every success or
failure path. -/
theorem done_never_delivered_counterexample :
    (send .keep_alive
      [ .resolved .ok [1] false,
        .connected .ok true,
        .wrote true .ok,
        .gotHeader true .ok "HHHH\r\n\r\nhello" 8
          [.status 200, .headerField "Content-Length", .headerValue "5"] false
          [.body "hello"] false ]).next = Pending.idle ∧
    (send .keep_alive
      [ .resolved .ok [1] false,
        .connected .ok true,
        .wrote true .ok,
        .gotHeader true .ok "HHHH\r\n\r\nhello" 8
          [.status 200, .headerField "Content-Length", .headerValue "5"] false
          [.body "hello"] false ]).trace =
      [HState.CREATED, .SENDING, .RECEIVING, .HEADER_RECEIVED, .RECEIVING] ∧
    (send .keep_alive
      [ .resolved .ok [1] false,
        .connected .ok true,
        .wrote true .ok,
        .gotHeader true .ok "HHHH\r\n\r\nhello" 8
          [.status 200, .headerField "Content-Length", .headerValue "5"] false
          [.body "hello"] false ]).trace.count HState.DONE = 0 := by
  refine ⟨by decide, by decide, by decide⟩

theorem done_at_most_once_witness :
    ((send .close [Ev.resolved .otherError [] false]).trace.count HState.DONE ≤ 1) ∧
    ((send .close [Ev.resolved .otherError [] false]).trace.getLast? =
        some HState.DONE ∧
      (send .close [Ev.resolved .otherError [] false]).next = .idle) :=
  ⟨(done_at_most_once .close [Ev.resolved .otherError [] false]).1,
   (done_at_most_once .close [Ev.resolved .otherError [] false]).2 (by decide)⟩

theorem build_single_connection_header_witness :
    (build "GET" "/" 1 1 [("Host", "example.test")] ConnType.upgrade "" =
      .error "upgrade") ∧
    ∃ segs ct2,
      buildSegments "GET" "/" 1 1 [("Host", "example.test")] ConnType.close "" =
        .ok (segs, ct2) ∧
      build "GET" "/" 1 1 [("Host", "example.test")] ConnType.close "" =
        .ok (serialize segs, ct2) ∧
      segs.countP isConnLine = 1 ∧
      (∀ l ∈ segs, isConnLine l = true →
        l = "Connection: close" ∨ l = "Connection: keep-alive") ∧
      (ConnType.close ≠ ConnType.keep_alive →
        (∀ l ∈ segs, isConnLine l = true → l = "Connection: close") ∧
        ct2 = ConnType.close) :=
  ⟨(build_single_connection_header "GET" "/" 1 1 [("Host", "example.test")]
      ConnType.upgrade "").1 rfl,
   (build_single_connection_header "GET" "/" 1 1 [("Host", "example.test")]
      ConnType.close "").2 (by decide) (by decide) (by decide) (by decide)⟩

theorem build_body_content_length_witness :
    ∃ cs ct2, connStr ConnType.close = some cs ∧
      build "PUT" "/key" 1 1 [] ConnType.close "hi" =
        .ok (serialize ([requestLine "PUT" "/key" 1 1]
                ++ ([] : List (String × String)).map headerLine ++ ["Connection: " ++ cs])
              ++ "Content-Length: " ++ toString "hi".length ++ "\r\n" ++ "\r\n"
              ++ "hi" ++ "\r\n", ct2) :=
  build_body_content_length "PUT" "/key" 1 1 [] ConnType.close "hi"
    (by decide) (by decide)

end Http
